import Mathlib

/-!
Shallow embedding of the cloud-infra-analysis core: the schema registry
(`src/data_models.py`), the graph ingestion engine
(`src/neo4j_loader/neo4j_loader.py`) and the security rule engine
(`src/rules/security_rules_engine.py`), together with theorems checking the
natural-language specification against this code.

The external Neo4j store is modelled as an explicit property graph value:
nodes carry a label, the `id` key property and a partial map of properties;
edges carry endpoint keys, a relationship type and a `lastupdated` stamp.
Cypher statements issued by the loader are translated clause by clause:
`MERGE (n:L {id: item.id})` is find-or-create by `(label, id)`,
`SET n += item` overwrites exactly the keys present in the item (a null value
removes the property, as in Neo4j), `SET n.p = v` overwrites one property,
`MATCH` on a missing node yields no row, and `MERGE` on a null key property
is a statement error that rolls the statement back.
-/

namespace CloudInfra

/-- A scalar property value as it travels through the loader: the Python side
uses strings, ints, booleans and `None`. -/
inductive PropValue where
  | str (s : String)
  | int (n : Int)
  | bool (b : Bool)
  | null
deriving DecidableEq, Repr

/-- A resource record / query parameter map: an ordered key-value mapping as
produced by the extractors (Python `dict`; keys unique, first binding wins). -/
abbrev Record := List (String × PropValue)

/-- `dict` lookup: the value bound to `k`, if any. -/
def lookupRec (r : Record) (k : String) : Option PropValue :=
  (r.find? (fun p => p.1 == k)).map (fun p => p.2)

/-- `item.id` as used by `MERGE (n:L {id: item.id})`: a usable identity value
is present and non-null; otherwise the merge has a null key and the statement
fails. -/
def getId (r : Record) : Option PropValue :=
  match lookupRec r "id" with
  | some v => if v = PropValue.null then none else some v
  | none => none

/-- A graph node owned by the external store: label, `id` key property, and
the remaining properties as a partial map (a property set to null is absent). -/
structure Node where
  label : String
  id : PropValue
  fields : String → Option PropValue

/-- A graph relationship, identified by its endpoint keys and type, carrying
the `lastupdated` epoch stamp written by the relationship loader. -/
structure Edge where
  srcLabel : String
  srcId : PropValue
  rel : String
  dstLabel : String
  dstId : PropValue
  lastupdated : Int
deriving DecidableEq

/-- The state of the external graph store. -/
structure Graph where
  nodes : List Node
  edges : List Edge

/-! ## Schema registry (`src/data_models.py`) -/

/-- One entry of the schema registry: the node label plus the attribute names
of its `CartographyNodeProperties` dataclass (`_build_node_query` only
inspects these via `hasattr`, so the property-ref details are not needed). -/
structure CartographyNodeSchema where
  label : String
  props : List String
deriving DecidableEq, Repr

/-- `EC2InstanceNodeProperties` attribute names. -/
def ec2InstanceProps : List String :=
  ["id", "instanceid", "name", "state", "instancetype", "publicip",
   "privateip", "imageid", "launchtime", "availabilityzone", "region",
   "lastupdated", "platform", "architecture", "ebsoptimized", "tenancy"]

/-- `SecurityGroupNodeProperties` attribute names. -/
def securityGroupProps : List String :=
  ["id", "groupid", "name", "description", "vpcid", "region", "lastupdated"]

/-- `VPCNodeProperties` attribute names. -/
def vpcProps : List String :=
  ["id", "vpcid", "name", "cidrblock", "state", "isdefault", "region",
   "lastupdated"]

/-- `SubnetNodeProperties` attribute names. -/
def subnetProps : List String :=
  ["id", "subnetid", "name", "cidrblock", "availabilityzone", "vpcid",
   "region", "lastupdated"]

/-- `EBSVolumeNodeProperties` attribute names. -/
def ebsVolumeProps : List String :=
  ["id", "volumeid", "size", "volumetype", "state", "encrypted", "kmskeyid",
   "region", "lastupdated"]

/-- `SecurityRuleNodeProperties` attribute names (note: no `region`). -/
def securityRuleProps : List String :=
  ["id", "ruleid", "protocol", "portrange", "sourcecidr", "direction",
   "action", "description", "lastupdated"]

/-- `SCHEMA_REGISTRY`: the fixed, closed registry built at import time. -/
def SCHEMA_REGISTRY : List (String × CartographyNodeSchema) :=
  [("EC2Instance", ⟨"EC2Instance", ec2InstanceProps⟩),
   ("SecurityGroup", ⟨"SecurityGroup", securityGroupProps⟩),
   ("VPC", ⟨"VPC", vpcProps⟩),
   ("Subnet", ⟨"Subnet", subnetProps⟩),
   ("EBSVolume", ⟨"EBSVolume", ebsVolumeProps⟩),
   ("SecurityRule", ⟨"SecurityRule", securityRuleProps⟩)]

/-- `get_schema(node_type)`: `SCHEMA_REGISTRY.get(node_type)` — returns the
schema, or `none` when the kind is unregistered. -/
def get_schema (node_type : String) : Option CartographyNodeSchema :=
  (SCHEMA_REGISTRY.find? (fun p => p.1 == node_type)).map (fun p => p.2)

/-! ## Node ingestion (`ImprovedNeo4jLoader.load_nodes`) -/

/-- `SET n.p = $v`: writing a null value removes the property. -/
def setNull (v : PropValue) : Option PropValue :=
  if v = PropValue.null then none else some v

/-- The effect of `SET n += item` on one key: `some x` when the item binds the
key (`x = none` when the bound value is null, which removes the property),
`none` when the item leaves the key alone. -/
def itemVal (item : Record) (k : String) : Option (Option PropValue) :=
  (lookupRec item k).map setNull

/-- Properties of a node freshly created by `MERGE (n:L {id: idv})`: only the
key property is set. -/
def baseFields (idv : PropValue) : String → Option PropValue :=
  fun k => if k = "id" then some idv else none

/-- One row of `_build_node_query` applied to the matched (or created) node:
`SET n += item`, then `SET n.lastupdated = $lastupdated`, then
`SET n.region = $region` when the schema has a `region` attribute, then
`SET n.account_id = $account_id` when it has an `account_id` attribute
(later SET clauses win). -/
def applyItem (sch : CartographyNodeSchema) (tag : Int)
    (region account : PropValue) (f : String → Option PropValue)
    (item : Record) : String → Option PropValue :=
  fun k =>
    if "account_id" ∈ sch.props ∧ k = "account_id" then setNull account
    else if "region" ∈ sch.props ∧ k = "region" then setNull region
    else if k = "lastupdated" then some (PropValue.int tag)
    else
      match itemVal item k with
      | some x => x
      | none => f k

/-- Does node `n` match `(:lbl {id: idv})`? -/
def nodeKeyMatches (lbl : String) (idv : PropValue) (n : Node) : Bool :=
  n.label == lbl && n.id == idv

/-- Is some node with key `(lbl, idv)` present? -/
def containsKey (ns : List Node) (lbl : String) (idv : PropValue) : Bool :=
  ns.any (nodeKeyMatches lbl idv)

/-- One `UNWIND` row of `_build_node_query`: `MERGE (n:label {id: item.id})`
then the SET clauses. If the key matches existing nodes they are updated in
place; otherwise a fresh node is created. A row whose identity is absent or
null cannot be executed (the surrounding batch fails; see `loadNodesGo`). -/
def upsertNode (sch : CartographyNodeSchema) (tag : Int)
    (region account : PropValue) (ns : List Node) (item : Record) :
    List Node :=
  match getId item with
  | none => ns
  | some idv =>
    if containsKey ns sch.label idv then
      ns.map (fun n =>
        if nodeKeyMatches sch.label idv n then
          { n with fields := applyItem sch tag region account n.fields item }
        else n)
    else
      ns ++ [⟨sch.label, idv, applyItem sch tag region account
              (baseFields idv) item⟩]

/-- A record the merge can key on (identity present and non-null). -/
def goodRecord (r : Record) : Bool :=
  (getId r).isSome

/-- A batch whose upsert statement succeeds: every row has a usable identity.
One null identity makes `MERGE` fail and the auto-commit statement roll back
as a whole. -/
def goodBatch (b : List Record) : Bool :=
  b.all goodRecord

/-- `_load_node_batch`: the single `UNWIND $batch` statement, row by row. -/
def load_node_batch (sch : CartographyNodeSchema) (tag : Int)
    (region account : PropValue) (ns : List Node) (batch : List Record) :
    List Node :=
  batch.foldl (upsertNode sch tag region account) ns

/-- `range(0, len(data), 1000)` slicing: consecutive batches of 1000. -/
def chunksB {α : Type} (l : List α) : List (List α) :=
  if l.isEmpty then [] else l.take 1000 :: chunksB (l.drop 1000)
termination_by l.length
decreasing_by
  rename_i h
  simp only [List.length_drop]
  have hl : l.length ≠ 0 := by
    intro hh
    rw [List.eq_nil_of_length_eq_zero hh] at h
    exact h rfl
  omega

/-- The batch loop of `load_nodes` inside its `try`: batches run in order;
the first failing batch (a row with a null identity makes its statement
raise, leaving the graph as committed so far) aborts the loop and the
surrounding `except` returns `False`; otherwise `True`. -/
def loadNodesGo (sch : CartographyNodeSchema) (tag : Int)
    (region account : PropValue) :
    List Node → List (List Record) → Bool × List Node
  | ns, [] => (true, ns)
  | ns, b :: bs =>
    if goodBatch b then
      loadNodesGo sch tag region account
        (load_node_batch sch tag region account ns b) bs
    else (false, ns)

/-- `load_nodes(node_type, data, region, account_id)`: resolve the schema
(`None` logs an error and returns `False`), then load batches of 1000,
returning the success flag together with the resulting graph. -/
def load_nodes (node_type : String) (tag : Int) (region account : PropValue)
    (g : Graph) (data : List Record) : Bool × Graph :=
  match get_schema node_type with
  | none => (false, g)
  | some sch =>
    let r := loadNodesGo sch tag region account g.nodes (chunksB data)
    (r.1, { g with nodes := r.2 })

/-- Number of nodes carrying a given label. -/
def countLabel (ns : List Node) (lbl : String) : Nat :=
  (ns.filter (fun n => n.label == lbl)).length

/-- The property map of the first node matching `(:lbl {id: idv})`, if any. -/
def lookupNodeFields (ns : List Node) (lbl : String) (idv : PropValue) :
    Option (String → Option PropValue) :=
  (ns.find? (nodeKeyMatches lbl idv)).map (fun n => n.fields)

/-! ## Relationship ingestion (`ImprovedNeo4jLoader.load_relationships`) -/

/-- The endpoint pattern of one of the four relationship queries in
`_load_relationship_batch`: source/target labels and the batch-item fields
supplying their identities. -/
structure RelPattern where
  srcLabel : String
  srcField : String
  dstLabel : String
  dstField : String
deriving DecidableEq, Repr

/-- The per-type queries of `_load_relationship_batch`; an unknown type is
only logged (`logger.warning`) and the batch is a no-op. -/
def relPattern (rel_type : String) : Option RelPattern :=
  if rel_type = "IS_MEMBER_OF" then
    some ⟨"EC2Instance", "instance_id", "SecurityGroup", "group_id"⟩
  else if rel_type = "LOCATED_IN" then
    some ⟨"EC2Instance", "instance_id", "Subnet", "subnet_id"⟩
  else if rel_type = "ATTACHES_TO" then
    some ⟨"EBSVolume", "volume_id", "EC2Instance", "instance_id"⟩
  else if rel_type = "HAS_RULE" then
    some ⟨"SecurityGroup", "group_id", "SecurityRule", "rule_id"⟩
  else none

/-- `MATCH (x:lbl {id: item.fld})` for one endpoint: yields the identity when
the item supplies a non-null value and a node with that key exists;
otherwise the row matches nothing (a null value in a MATCH pattern matches
no node — it is not an error). -/
def resolveEndpoint (ns : List Node) (lbl : String) (item : Record)
    (fld : String) : Option PropValue :=
  match lookupRec item fld with
  | some v =>
    if v = PropValue.null then none
    else if containsKey ns lbl v then some v else none
  | none => none

/-- Do two edges describe the same `(a)-[r:T]->(b)` pattern (identity of a
relationship for `MERGE`)? -/
def sameEdgeKey (e0 e : Edge) : Bool :=
  e0.srcLabel == e.srcLabel && e0.srcId == e.srcId && e0.rel == e.rel &&
  e0.dstLabel == e.dstLabel && e0.dstId == e.dstId

/-- `MERGE (a)-[r:T]->(b) SET r.lastupdated = $lastupdated`: update the stamp
of the existing edge, or create it. -/
def upsertEdge (tag : Int) (es : List Edge) (e : Edge) : List Edge :=
  if es.any (fun e0 => sameEdgeKey e0 e) then
    es.map (fun e0 =>
      if sameEdgeKey e0 e then { e0 with lastupdated := tag } else e0)
  else es ++ [e]

/-- One `UNWIND` row of a relationship query: both endpoints must match for
the `MERGE` to run; otherwise the row produces nothing. Nodes are never
created or modified. -/
def processRelItem (p : RelPattern) (rel_type : String) (tag : Int)
    (g : Graph) (item : Record) : Graph :=
  match resolveEndpoint g.nodes p.srcLabel item p.srcField,
        resolveEndpoint g.nodes p.dstLabel item p.dstField with
  | some s, some d =>
    let e := Edge.mk p.srcLabel s rel_type p.dstLabel d tag
    { g with edges := upsertEdge tag g.edges e }
  | _, _ => g

/-- `_load_relationship_batch`: resolve the query for the type (unknown types
log a warning and do nothing), then run the `UNWIND` rows. -/
def load_relationship_batch (rel_type : String) (tag : Int) (g : Graph)
    (batch : List Record) : Graph :=
  match relPattern rel_type with
  | none => g
  | some p => batch.foldl (processRelItem p rel_type tag) g

/-- `load_relationships(rel_type, data)`: batches of 1000; nothing in the
relationship path raises (unresolved endpoints simply match no row), so the
`try` always completes and the call returns `True` with the updated graph. -/
def load_relationships (rel_type : String) (tag : Int) (g : Graph)
    (data : List Record) : Bool × Graph :=
  (true, (chunksB data).foldl (load_relationship_batch rel_type tag) g)

/-! ## Staleness sweeps -/

/-- `cleanup_old_data`: per label, `MATCH (n:label) WHERE n.lastupdated <
$update_tag DETACH DELETE n` — the comparison is with the loader's own
`self.update_tag` and is strict `<`; a node without a numeric `lastupdated`
satisfies no `<` comparison in Cypher and is kept. -/
def staleLT (tag : Int) (lbl : String) (n : Node) : Bool :=
  n.label == lbl &&
    match n.fields "lastupdated" with
    | some (PropValue.int v) => v < tag
    | _ => false

/-- Is the edge incident to one of the given (deleted) nodes? -/
def incidentAny (deleted : List Node) (e : Edge) : Bool :=
  deleted.any (fun n =>
    (n.label == e.srcLabel && n.id == e.srcId) ||
    (n.label == e.dstLabel && n.id == e.dstId))

/-- `DETACH DELETE` of every node satisfying `p`: the nodes disappear along
with their incident edges. -/
def detachDeleteAll (p : Node → Bool) (g : Graph) : Graph :=
  { nodes := g.nodes.filter (fun n => !(p n)),
    edges := g.edges.filter (fun e => !(incidentAny (g.nodes.filter p) e)) }

/-- `cleanup_old_data(node_types)` with the loader's epoch `tag`
(`self.update_tag`): one unbounded delete statement per label. -/
def cleanup_old_data (tag : Int) (node_types : List String) (g : Graph) :
    Graph :=
  node_types.foldl (fun g lbl => detachDeleteAll (staleLT tag lbl) g) g

/-- The advanced sweep's predicate: `n.lastupdated <> $UPDATE_TAG` where
`UPDATE_TAG = int(time.time())` is freshly computed at sweep time (`now`),
not the loader's ingestion epoch. A node without the property is not matched
(null never compares not-equal in Cypher). -/
def staleNE (now : Int) (lbl : String) (n : Node) : Bool :=
  n.label == lbl &&
    match n.fields "lastupdated" with
    | some v => !(v == PropValue.int now)
    | none => false

/-- `WITH n LIMIT limit DETACH DELETE n`: remove the first `limit` nodes (in
store order) satisfying `p`; returns the remaining nodes and the deleted
ones. -/
def takeStale (p : Node → Bool) : Nat → List Node → List Node × List Node
  | _, [] => ([], [])
  | 0, ns => (ns, [])
  | Nat.succ k, n :: ns =>
    if p n then
      let r := takeStale p k ns
      (r.1, n :: r.2)
    else
      let r := takeStale p (Nat.succ k) ns
      (n :: r.1, r.2)

/-- One label's bounded delete statement of `cleanup_old_data_advanced`. -/
def sweepLabelAdvanced (now : Int) (limit : Nat) (lbl : String) (g : Graph) :
    Graph :=
  let r := takeStale (staleNE now lbl) limit g.nodes
  { nodes := r.1, edges := g.edges.filter (fun e => !(incidentAny r.2 e)) }

/-- `cleanup_old_data_advanced(node_labels, limit_size)`: computes
`update_tag = int(time.time())` once (`now`), then runs one bounded delete
per label. -/
def cleanup_old_data_advanced (now : Int) (limit : Nat)
    (node_labels : List String) (g : Graph) : Graph :=
  node_labels.foldl (fun g lbl => sweepLabelAdvanced now limit lbl g) g

/-! ## Security rule engine (`src/rules/security_rules_engine.py`) -/

/-- `Severity` enum. -/
inductive Severity where
  | CRITICAL
  | HIGH
  | MEDIUM
  | LOW
  | INFO
deriving DecidableEq, Repr

/-- `severity.value`: the enum's string payload. -/
def Severity.value : Severity → String
  | .CRITICAL => "CRITICAL"
  | .HIGH => "HIGH"
  | .MEDIUM => "MEDIUM"
  | .LOW => "LOW"
  | .INFO => "INFO"

/-- A value inside an affected-resource dict: a scalar (`instance.get(k)`,
null when missing) or a whole nested node dict (the `rule` entry). -/
inductive RVal where
  | prop (v : PropValue)
  | map (m : List (String × PropValue))
deriving DecidableEq, Repr

/-- One affected-resource entry. -/
abbrev Resource := List (String × RVal)

/-- A value in one row of a query result: a matched node (convertible with
`dict(...)`) or a scalar column such as `count(instance)`. -/
inductive RowVal where
  | node (m : List (String × PropValue))
  | val (v : PropValue)
deriving DecidableEq, Repr

/-- One result row, keyed by the RETURN column names. -/
abbrev Row := List (String × RowVal)

/-- `dict(record[k])` for a node-valued column. -/
def rowNode (row : Row) (k : String) : List (String × PropValue) :=
  match (row.find? (fun p => p.1 == k)).map (fun p => p.2) with
  | some (RowVal.node m) => m
  | _ => []

/-- `record[k]` for a scalar column. -/
def rowVal (row : Row) (k : String) : PropValue :=
  match (row.find? (fun p => p.1 == k)).map (fun p => p.2) with
  | some (RowVal.val v) => v
  | _ => PropValue.null

/-- `d.get(k)` on a node dict: null when the key is absent. -/
def nget (m : List (String × PropValue)) (k : String) : PropValue :=
  (lookupRec m k).getD PropValue.null

/-- The graph session as the rules see it: `session.run(query)` either
returns the result rows or raises a store error. -/
def Session : Type := String → Except String (List Row)

/-- `SecurityFinding` dataclass. -/
structure SecurityFinding where
  rule_id : String
  rule_name : String
  severity : Severity
  description : String
  affected_resources : List Resource
  recommendation : String
  cypher_query : String
  metadata : Option (List (String × PropValue))

/-- `SecurityRule` base class: the identifying attributes set in
`__init__`, the Cypher text of `get_cypher_query`, and the polymorphic
`evaluate`, which may raise (`Except.error`). -/
structure SecurityRule where
  rule_id : String
  rule_name : String
  description : String
  severity : Severity
  recommendation : String
  query : String
  evaluate : Session → Except String (List SecurityFinding)

/-- The `evaluate` body shared (verbatim, up to the per-rule affected-resource
dict) by all rules in this module: run the query, build one affected entry
per row, and emit a single finding carrying `count = len(affected_resources)`
iff the list is non-empty. -/
def standardEvaluate (rid rname desc : String) (sev : Severity)
    (recomm q : String) (extract : Row → Resource) (s : Session) :
    Except String (List SecurityFinding) :=
  match s q with
  | Except.error e => Except.error e
  | Except.ok rows =>
    let affected := rows.map extract
    Except.ok
      (if affected.isEmpty then []
       else [⟨rid, rname, sev, desc, affected, recomm, q,
              some [("count", PropValue.int affected.length)]⟩])

/-- Build one of the module's rule classes from its `__init__` arguments,
query text and affected-resource construction. -/
def mkStdRule (rid rname desc : String) (sev : Severity) (recomm q : String)
    (extract : Row → Resource) : SecurityRule :=
  ⟨rid, rname, desc, sev, recomm, q,
   standardEvaluate rid rname desc sev recomm q extract⟩

/-- `ExposedSSHRule.get_cypher_query`. -/
def exposedSSHQuery : String :=
  "MATCH (instance:EC2Instance)-[:IS_MEMBER_OF]->(sg:SecurityGroup), (sg)-[:HAS_RULE]->(rule:SecurityRule) WHERE rule.SourceCIDR = \x270.0.0.0/0\x27 AND rule.PortRange CONTAINS \x2722\x27 AND rule.Protocol = \x27tcp\x27 AND rule.Direction = \x27inbound\x27 RETURN instance, sg, rule"

/-- `ExposedSSHRule`. -/
def ExposedSSHRule : SecurityRule :=
  mkStdRule "EXPOSED_SSH" "暴露的 SSH 服務" "檢測暴露於公網的 SSH 服務（端口 22）"
    Severity.HIGH "限制 SSH 訪問來源 IP 或使用 VPN" exposedSSHQuery
    (fun row =>
      let inst := rowNode row "instance"
      let sg := rowNode row "sg"
      let rule := rowNode row "rule"
      [("type", RVal.prop (PropValue.str "EC2Instance")),
       ("id", RVal.prop (nget inst "id")),
       ("name", RVal.prop (nget inst "name")),
       ("public_ip", RVal.prop (nget inst "publicip")),
       ("security_group", RVal.prop (nget sg "name")),
       ("rule", RVal.map rule)])

/-- `ExposedRDPSRule.get_cypher_query`. -/
def exposedRDPQuery : String :=
  "MATCH (instance:EC2Instance)-[:IS_MEMBER_OF]->(sg:SecurityGroup), (sg)-[:HAS_RULE]->(rule:SecurityRule) WHERE rule.SourceCIDR = \x270.0.0.0/0\x27 AND rule.PortRange CONTAINS \x273389\x27 AND rule.Protocol = \x27tcp\x27 AND rule.Direction = \x27inbound\x27 RETURN instance, sg, rule"

/-- `ExposedRDPSRule`. -/
def ExposedRDPSRule : SecurityRule :=
  mkStdRule "EXPOSED_RDP" "暴露的 RDP 服務" "檢測暴露於公網的 RDP 服務（端口 3389）"
    Severity.HIGH "限制 RDP 訪問來源 IP 或使用 VPN" exposedRDPQuery
    (fun row =>
      let inst := rowNode row "instance"
      let sg := rowNode row "sg"
      let rule := rowNode row "rule"
      [("type", RVal.prop (PropValue.str "EC2Instance")),
       ("id", RVal.prop (nget inst "id")),
       ("name", RVal.prop (nget inst "name")),
       ("public_ip", RVal.prop (nget inst "publicip")),
       ("security_group", RVal.prop (nget sg "name")),
       ("rule", RVal.map rule)])

/-- `OverlyPermissiveRule.get_cypher_query`. -/
def overlyPermissiveQuery : String :=
  "MATCH (sg:SecurityGroup)-[:HAS_RULE]->(rule:SecurityRule) WHERE rule.SourceCIDR = \x270.0.0.0/0\x27 AND rule.PortRange = \x270-65535\x27 AND rule.Protocol = \x27tcp\x27 AND rule.Direction = \x27inbound\x27 RETURN sg, rule"

/-- `OverlyPermissiveRule`. -/
def OverlyPermissiveRule : SecurityRule :=
  mkStdRule "OVERLY_PERMISSIVE" "過度寬鬆的安全群組規則" "檢測允許所有流量的安全群組規則"
    Severity.CRITICAL "限制規則的來源 IP 範圍和端口範圍" overlyPermissiveQuery
    (fun row =>
      let sg := rowNode row "sg"
      let rule := rowNode row "rule"
      [("type", RVal.prop (PropValue.str "SecurityGroup")),
       ("id", RVal.prop (nget sg "id")),
       ("name", RVal.prop (nget sg "name")),
       ("vpc_id", RVal.prop (nget sg "vpcid")),
       ("rule", RVal.map rule)])

/-- `UnencryptedEBSRule.get_cypher_query`. -/
def unencryptedEBSQuery : String :=
  "MATCH (volume:EBSVolume) WHERE volume.Encrypted = false AND volume.State = \x27in-use\x27 RETURN volume"

/-- `UnencryptedEBSRule`. -/
def UnencryptedEBSRule : SecurityRule :=
  mkStdRule "UNENCRYPTED_EBS" "未加密的 EBS 磁碟" "檢測未加密的 EBS 磁碟"
    Severity.MEDIUM "啟用 EBS 磁碟加密" unencryptedEBSQuery
    (fun row =>
      let volume := rowNode row "volume"
      [("type", RVal.prop (PropValue.str "EBSVolume")),
       ("id", RVal.prop (nget volume "id")),
       ("volume_id", RVal.prop (nget volume "volumeid")),
       ("size", RVal.prop (nget volume "size")),
       ("volume_type", RVal.prop (nget volume "volumetype")),
       ("state", RVal.prop (nget volume "state"))])

/-- `OrphanedEBSRule.get_cypher_query`. -/
def orphanedEBSQuery : String :=
  "MATCH (volume:EBSVolume) WHERE NOT (volume)-[:ATTACHES_TO]->(:EC2Instance) AND volume.State = \x27available\x27 RETURN volume"

/-- `OrphanedEBSRule`. -/
def OrphanedEBSRule : SecurityRule :=
  mkStdRule "ORPHANED_EBS" "孤兒 EBS 磁碟" "檢測未附加到任何實例的 EBS 磁碟"
    Severity.LOW "刪除未使用的 EBS 磁碟以節省成本" orphanedEBSQuery
    (fun row =>
      let volume := rowNode row "volume"
      [("type", RVal.prop (PropValue.str "EBSVolume")),
       ("id", RVal.prop (nget volume "id")),
       ("volume_id", RVal.prop (nget volume "volumeid")),
       ("size", RVal.prop (nget volume "size")),
       ("volume_type", RVal.prop (nget volume "volumetype")),
       ("state", RVal.prop (nget volume "state"))])

/-- `UnusedSecurityGroupRule.get_cypher_query`. -/
def unusedSGQuery : String :=
  "MATCH (sg:SecurityGroup) WHERE NOT (sg)<-[:IS_MEMBER_OF]-(:EC2Instance) RETURN sg"

/-- `UnusedSecurityGroupRule`. -/
def UnusedSecurityGroupRule : SecurityRule :=
  mkStdRule "UNUSED_SECURITY_GROUP" "未使用的安全群組" "檢測未附加到任何資源的安全群組"
    Severity.LOW "刪除未使用的安全群組" unusedSGQuery
    (fun row =>
      let sg := rowNode row "sg"
      [("type", RVal.prop (PropValue.str "SecurityGroup")),
       ("id", RVal.prop (nget sg "id")),
       ("name", RVal.prop (nget sg "name")),
       ("description", RVal.prop (nget sg "description")),
       ("vpc_id", RVal.prop (nget sg "vpcid"))])

/-- `NetworkSegmentationRule.get_cypher_query`. -/
def networkSegQuery : String :=
  "MATCH (vpc:VPC)-[:CONTAINS]->(subnet:Subnet) OPTIONAL MATCH (subnet)-[:CONTAINS]->(instance:EC2Instance) RETURN vpc, subnet, count(instance) as instance_count ORDER BY vpc.id, subnet.id"

/-- `NetworkSegmentationRule`. -/
def NetworkSegmentationRule : SecurityRule :=
  mkStdRule "NETWORK_SEGMENTATION" "網路分段分析" "分析網路分段情況和跨 VPC 連接"
    Severity.MEDIUM "實施適當的網路分段策略" networkSegQuery
    (fun row =>
      let vpc := rowNode row "vpc"
      let subnet := rowNode row "subnet"
      [("type", RVal.prop (PropValue.str "NetworkSegment")),
       ("vpc_id", RVal.prop (nget vpc "id")),
       ("vpc_name", RVal.prop (nget vpc "name")),
       ("subnet_id", RVal.prop (nget subnet "id")),
       ("subnet_cidr", RVal.prop (nget subnet "cidrblock")),
       ("availability_zone", RVal.prop (nget subnet "availabilityzone")),
       ("instance_count", RVal.prop (rowVal row "instance_count"))])

/-- `SecurityRulesEngine._load_default_rules`: the registration-ordered
default rule set. -/
def _load_default_rules : List SecurityRule :=
  [ExposedSSHRule,
   ExposedRDPSRule,
   OverlyPermissiveRule,
   UnencryptedEBSRule,
   OrphanedEBSRule,
   UnusedSecurityGroupRule,
   NetworkSegmentationRule]

/-- The `rules_to_run` selection at the top of `run_analysis`: `None` means
the full rule list; a list keeps exactly the rules whose id is a member. -/
def selectRules (rules : List SecurityRule) (rule_ids : Option (List String)) :
    List SecurityRule :=
  match rule_ids with
  | none => rules
  | some ids => rules.filter (fun r => ids.contains r.rule_id)

/-- `SecurityRulesEngine.run_analysis(rule_ids)`: evaluate the selected rules
in order, extending `all_findings` with each successful result; a rule whose
`evaluate` raises is logged and contributes nothing. -/
def run_analysis (s : Session) (rules : List SecurityRule)
    (rule_ids : Option (List String)) : List SecurityFinding :=
  (selectRules rules rule_ids).foldl
    (fun acc r =>
      match r.evaluate s with
      | Except.ok fs => acc ++ fs
      | Except.error _ => acc) []

/-- `if key not in d: d[key] = 0` then `d[key] += 1` on an insertion-ordered
dict. -/
def bump : List (String × Nat) → String → List (String × Nat)
  | [], k => [(k, 1)]
  | p :: m, k => if p.1 == k then (p.1, p.2 + 1) :: m else p :: bump m k

/-- The summary dict built by `get_summary`. -/
structure AnalysisSummary where
  total_findings : Nat
  by_severity : List (String × Nat)
  by_rule : List (String × Nat)
  affected_resources : Nat
deriving DecidableEq, Repr

/-- `SecurityRulesEngine.get_summary(findings)`: pure aggregation — severity
counts keyed by `finding.severity.value`, rule counts keyed by
`finding.rule_id`, and the total length of all affected-resource lists. -/
def get_summary (findings : List SecurityFinding) : AnalysisSummary :=
  { total_findings := findings.length,
    by_severity :=
      findings.foldl (fun m f => bump m f.severity.value) [],
    by_rule :=
      findings.foldl (fun m f => bump m f.rule_id) [],
    affected_resources :=
      findings.foldl (fun n f => n + f.affected_resources.length) 0 }

/-- `d.get(k, 0)` on a summary dict. -/
def lookupCount (m : List (String × Nat)) (k : String) : Nat :=
  ((m.find? (fun p => p.1 == k)).map (fun p => p.2)).getD 0

/-! ## Theorems -/

/-- C10: calling `run_analysis` with an empty rule-id list selects zero rules
and returns an empty findings list, whereas passing `None` selects the full
registered rule list in registration order. -/
theorem empty_rule_ids_run_none_selects_all (s : Session)
    (rules : List SecurityRule) :
    selectRules rules (some []) = [] ∧
    run_analysis s rules (some []) = [] ∧
    selectRules rules none = rules := by
  have hsel : selectRules rules (some []) = [] := by
    simp [selectRules]
  refine ⟨hsel, ?_, rfl⟩
  unfold run_analysis
  rw [hsel]
  rfl

/-- An unregistered kind has no entry under any registry key. -/
theorem get_schema_not_registered (node_type : String)
    (h : ∀ p ∈ SCHEMA_REGISTRY, p.1 ≠ node_type) :
    get_schema node_type = none := by
  unfold get_schema
  rw [List.find?_eq_none.mpr]
  · rfl
  · intro p hp
    simpa using h p hp

/-- C5 (amended): schema lookup of a kind not present in the registry returns
`None` (a null result, not an exception), and `load_nodes` treats that as a
configuration failure: it logs and returns `False`, leaving the graph
untouched. -/
theorem unknown_schema_lookup_returns_none (node_type : String)
    (h : ∀ p ∈ SCHEMA_REGISTRY, p.1 ≠ node_type)
    (tag : Int) (region account : PropValue) (g : Graph)
    (data : List Record) :
    get_schema node_type = none ∧
    load_nodes node_type tag region account g data = (false, g) := by
  have hs := get_schema_not_registered node_type h
  refine ⟨hs, ?_⟩
  unfold load_nodes
  rw [hs]

/-- Witness for C5: the kind `"GCPBucket"` is not registered, so its lookup
yields `None` and loading under it fails. -/
theorem unknown_schema_lookup_returns_none_witness :
    get_schema "GCPBucket" = none ∧
    load_nodes "GCPBucket" 7 PropValue.null PropValue.null
      (Graph.mk [] []) [] = (false, Graph.mk [] []) := by
  exact unknown_schema_lookup_returns_none "GCPBucket" (by decide) 7
    PropValue.null PropValue.null (Graph.mk [] []) []

/-- C5 (counterexample): the claim says an unknown-kind lookup raises
`UnknownSchemaError` rather than returning a null result; the code's
`get_schema` returns exactly the null result `None` for an unknown kind, and
its caller `load_nodes` keeps going, returning `False` instead of
propagating any error. -/
theorem unknown_schema_lookup_null_counterexample :
    get_schema "GCPBucket" = none := by
  decide

/-- Reading a summary dict that starts with entry `p`. -/
theorem lookupCount_cons (p : String × Nat) (m : List (String × Nat))
    (k : String) :
    lookupCount (p :: m) k = if p.1 == k then p.2 else lookupCount m k := by
  simp only [lookupCount, List.find?]
  cases hpk : p.1 == k <;> simp [hpk, lookupCount]

/-- Incrementing one key of a summary dict affects exactly that key. -/
theorem bump_lookupCount (m : List (String × Nat)) (k kb : String) :
    lookupCount (bump m kb) k =
      lookupCount m k + (if k = kb then 1 else 0) := by
  induction m with
  | nil =>
    by_cases hk : k = kb
    · subst hk
      simp [bump, lookupCount_cons, lookupCount, List.find?]
    · have hbk : (kb == k) = false := by
        simp only [beq_eq_false_iff_ne, ne_eq]
        exact fun hh => hk hh.symm
      simp [bump, lookupCount_cons, lookupCount, List.find?, hbk, hk]
  | cons p m ih =>
    simp only [bump]
    by_cases hp : p.1 = kb
    · rw [if_pos (beq_iff_eq.mpr hp)]
      rw [lookupCount_cons, lookupCount_cons]
      by_cases hk : p.1 = k
      · rw [if_pos (beq_iff_eq.mpr hk), if_pos (beq_iff_eq.mpr hk)]
        rw [if_pos (hk ▸ hp)]
      · have hkb : (p.1 == k) = false := by
          simp only [beq_eq_false_iff_ne, ne_eq]; exact hk
        rw [hkb, if_neg (by simp), if_neg (by simp)]
        rw [if_neg (fun hh : k = kb => hk (hp.trans hh.symm))]
        simp
    · have hpb : (p.1 == kb) = false := by
        simp only [beq_eq_false_iff_ne, ne_eq]; exact hp
      rw [hpb, if_neg (by simp)]
      rw [lookupCount_cons, lookupCount_cons]
      by_cases hk : p.1 = k
      · rw [if_pos (beq_iff_eq.mpr hk), if_pos (beq_iff_eq.mpr hk)]
        rw [if_neg (fun hh : k = kb => hp (hk.trans hh))]
        simp
      · have hkb : (p.1 == k) = false := by
          simp only [beq_eq_false_iff_ne, ne_eq]; exact hk
        rw [hkb, if_neg (by simp), if_neg (by simp)]
        exact ih

/-- Folding `bump` over findings counts, per key, the findings mapped to that
key. -/
theorem foldl_bump_count (gk : SecurityFinding → String)
    (l : List SecurityFinding) (m : List (String × Nat)) (k : String) :
    lookupCount (l.foldl (fun m f => bump m (gk f)) m) k =
      lookupCount m k + (l.filter (fun f => gk f == k)).length := by
  induction l generalizing m with
  | nil => simp
  | cons f l ih =>
    rw [List.foldl_cons, ih, bump_lookupCount, List.filter_cons]
    by_cases hf : gk f = k
    · rw [if_pos (show (gk f == k) = true by simp [hf]), if_pos hf.symm]
      simp only [List.length_cons]
      omega
    · rw [if_neg (show ¬ (gk f == k) = true by simp [hf]),
        if_neg (fun hh : k = gk f => hf hh.symm)]
      omega

/-- Distinct severities have distinct string values. -/
theorem severity_value_injective (s t : Severity) (h : s.value = t.value) :
    s = t := by
  cases s <;> cases t <;> first | rfl | simp [Severity.value] at h

/-- C4: `get_summary` keys severity counts by the severity's own string
value, so each severity's count is exactly the number of findings with that
severity (CRITICAL is never merged into HIGH or any other key), and the
total affected-resource count is the sum of the lengths of the findings'
affected-resource lists; the summary is computed from the findings alone. -/
theorem summary_severity_keys_and_resource_total
    (fs : List SecurityFinding) :
    (∀ sev : Severity,
      lookupCount (get_summary fs).by_severity sev.value =
        (fs.filter (fun f => f.severity == sev)).length) ∧
    (get_summary fs).affected_resources =
      (fs.map (fun f => f.affected_resources.length)).sum := by
  constructor
  · intro sev
    unfold get_summary
    rw [foldl_bump_count]
    rw [show lookupCount [] sev.value = 0 from rfl, Nat.zero_add]
    congr 1
    apply List.filter_congr
    intro f _
    by_cases h : f.severity = sev
    · simp [h]
    · have hv : f.severity.value ≠ sev.value :=
        fun hh => h (severity_value_injective _ _ hh)
      simp [h, hv]
  · unfold get_summary
    simp only
    have key : ∀ (l : List SecurityFinding) (n0 : Nat),
        l.foldl (fun n f => n + f.affected_resources.length) n0 =
          n0 + (l.map (fun f => f.affected_resources.length)).sum := by
      intro l
      induction l with
      | nil => simp
      | cons f l ih =>
        intro n0
        rw [List.foldl_cons, ih, List.map_cons, List.sum_cons, Nat.add_assoc]
    rw [key, Nat.zero_add]

/-- The findings a rule contributes to `all_findings`: its result when
`evaluate` succeeds, nothing when it raises. -/
def okFindings (e : Except String (List SecurityFinding)) :
    List SecurityFinding :=
  match e with
  | Except.ok fs => fs
  | Except.error _ => []

/-- The `run_analysis` loop extends its accumulator with exactly the
successful rules' findings, in order. -/
theorem run_analysis_loop_acc (s : Session) (l : List SecurityRule)
    (acc : List SecurityFinding) :
    l.foldl
      (fun acc r =>
        match r.evaluate s with
        | Except.ok fs => acc ++ fs
        | Except.error _ => acc) acc =
      acc ++ (l.map (fun r => okFindings (r.evaluate s))).flatten := by
  induction l generalizing acc with
  | nil => simp
  | cons r l ih =>
    rw [List.foldl_cons]
    cases he : r.evaluate s with
    | ok fs =>
      simp only [he, ih, okFindings, List.map_cons, List.flatten,
        List.append_assoc]
    | error e =>
      simp only [he, ih, okFindings, List.map_cons, List.flatten,
        List.append_assoc, List.nil_append]

/-- C1: when a rule set contains a rule whose `evaluate` raises while others
succeed, `run_analysis` returns exactly the concatenation, in registration
order, of the succeeding rules' findings — the failing rule is caught and
excluded, and the remaining rules still run. -/
theorem failing_rule_isolated (s : Session) (rules : List SecurityRule)
    (h : ∃ r ∈ rules, ∃ e, r.evaluate s = Except.error e) :
    run_analysis s rules none =
      (rules.map (fun r => okFindings (r.evaluate s))).flatten := by
  unfold run_analysis selectRules
  rw [run_analysis_loop_acc]
  exact List.nil_append _

/-- A rule used by the C1 witness whose query the witness session rejects. -/
def wRuleFail : SecurityRule :=
  mkStdRule "W_FAIL" "wfail" "always raises" Severity.HIGH "none" "WQF"
    (fun _ => [])

/-- A succeeding rule for the C1 witness. -/
def wRuleOk1 : SecurityRule :=
  mkStdRule "W_OK1" "wok1" "succeeds" Severity.LOW "none" "WQ1"
    (fun _ => [("type", RVal.prop (PropValue.str "X"))])

/-- A second succeeding rule for the C1 witness. -/
def wRuleOk2 : SecurityRule :=
  mkStdRule "W_OK2" "wok2" "succeeds" Severity.MEDIUM "none" "WQ2"
    (fun _ => [("type", RVal.prop (PropValue.str "Y"))])

/-- The C1 witness session: the failing rule's query hits a store error;
every other query returns one row. -/
def wSession : Session :=
  fun q => if q = "WQF" then Except.error "store error" else Except.ok [[]]

/-- Witness for C1: a three-rule set with one failing and two succeeding
rules. -/
theorem failing_rule_isolated_witness :
    (∃ r ∈ [wRuleFail, wRuleOk1, wRuleOk2],
      ∃ e, r.evaluate wSession = Except.error e) ∧
    run_analysis wSession [wRuleFail, wRuleOk1, wRuleOk2] none =
      ([wRuleFail, wRuleOk1, wRuleOk2].map
        (fun r => okFindings (r.evaluate wSession))).flatten := by
  have hmem : wRuleFail ∈ [wRuleFail, wRuleOk1, wRuleOk2] :=
    List.mem_cons_self _ _
  have hfail : wRuleFail.evaluate wSession = Except.error "store error" := rfl
  exact ⟨⟨wRuleFail, hmem, "store error", hfail⟩,
    failing_rule_isolated wSession [wRuleFail, wRuleOk1, wRuleOk2]
      ⟨wRuleFail, hmem, "store error", hfail⟩⟩

/-- The shared `evaluate` body returns no finding or exactly one finding
whose `count` metadata equals the length of its non-empty affected-resource
list. -/
theorem standardEvaluate_shape (rid rname desc : String) (sev : Severity)
    (recomm q : String) (extract : Row → Resource) (s : Session)
    (rows : List Row) (h : s q = Except.ok rows) :
    standardEvaluate rid rname desc sev recomm q extract s =
      Except.ok [] ∨
    ∃ f : SecurityFinding,
      standardEvaluate rid rname desc sev recomm q extract s =
        Except.ok [f] ∧
      f.affected_resources ≠ [] ∧
      f.metadata =
        some [("count", PropValue.int f.affected_resources.length)] := by
  unfold standardEvaluate
  rw [h]
  cases hr : (rows.map extract).isEmpty with
  | true =>
    left
    simp [hr]
  | false =>
    right
    refine ⟨⟨rid, rname, sev, desc, rows.map extract, recomm, q,
      some [("count", PropValue.int (rows.map extract).length)]⟩,
      by simp [hr], ?_, rfl⟩
    intro hnil
    have hnil2 : rows.map extract = [] := hnil
    rw [hnil2] at hr
    simp at hr

/-- C9: every rule in the default rule set, on any successful query result,
emits either no finding or a single finding whose `count` metadata equals
the length of its affected-resource list; a finding with an empty
affected-resource list is never produced. -/
theorem default_rule_evaluate_shape (r : SecurityRule)
    (hr : r ∈ _load_default_rules) (s : Session) (rows : List Row)
    (h : s r.query = Except.ok rows) :
    r.evaluate s = Except.ok [] ∨
    ∃ f : SecurityFinding,
      r.evaluate s = Except.ok [f] ∧
      f.affected_resources ≠ [] ∧
      f.metadata =
        some [("count", PropValue.int f.affected_resources.length)] := by
  simp only [_load_default_rules, List.mem_cons, List.not_mem_nil,
    or_false] at hr
  rcases hr with rfl | rfl | rfl | rfl | rfl | rfl | rfl
  all_goals exact standardEvaluate_shape _ _ _ _ _ _ _ s rows h

/-- Witness for C9: the exposed-SSH rule on an empty result set. -/
theorem default_rule_evaluate_shape_witness :
    ExposedSSHRule ∈ _load_default_rules ∧
    (ExposedSSHRule.evaluate (fun _ => Except.ok []) = Except.ok [] ∨
    ∃ f : SecurityFinding,
      ExposedSSHRule.evaluate (fun _ => Except.ok []) = Except.ok [f] ∧
      f.affected_resources ≠ [] ∧
      f.metadata =
        some [("count", PropValue.int f.affected_resources.length)]) := by
  refine ⟨List.mem_cons_self _ _, ?_⟩
  exact default_rule_evaluate_shape ExposedSSHRule (List.mem_cons_self _ _)
    (fun _ => Except.ok []) [] rfl

/-- Chunking the empty list gives no batches. -/
theorem chunksB_nil {α : Type} : chunksB ([] : List α) = [] := by
  unfold chunksB
  rfl

/-- A non-empty list of at most one batch size is a single batch. -/
theorem chunksB_small {α : Type} (l : List α) (h0 : l ≠ [])
    (hle : l.length ≤ 1000) : chunksB l = [l] := by
  rw [chunksB]
  rw [if_neg (fun hh => h0 (List.isEmpty_iff.mp hh))]
  rw [List.take_of_length_le hle, List.drop_eq_nil_of_le hle, chunksB_nil]

/-- Concatenating the batches gives back the data, bounded version. -/
theorem chunksB_flatten_le {α : Type} :
    ∀ (n : Nat) (l : List α), l.length ≤ n → (chunksB l).flatten = l := by
  intro n
  induction n with
  | zero =>
    intro l h
    rw [List.eq_nil_of_length_eq_zero (Nat.le_zero.mp h), chunksB_nil]
    rfl
  | succ n ih =>
    intro l h
    by_cases h0 : l.isEmpty
    · rw [List.isEmpty_iff.mp h0, chunksB_nil]
      rfl
    · rw [chunksB, if_neg h0]
      rw [List.flatten_cons]
      rw [ih (l.drop 1000) (by simp only [List.length_drop]; omega)]
      exact List.take_append_drop 1000 l

/-- Concatenating the batches gives back the data. -/
theorem chunksB_flatten {α : Type} (l : List α) :
    (chunksB l).flatten = l :=
  chunksB_flatten_le l.length l (Nat.le_refl _)

/-! ### C7: unresolved relationship endpoints -/

/-- An edge the relationship loader may leave in the graph: either an edge
with the key of a pre-existing edge, or one whose endpoints both exist among
the pre-existing nodes. -/
def edgeJustified (g0 : Graph) (e : Edge) : Prop :=
  (∃ e0 ∈ g0.edges, sameEdgeKey e0 e = true) ∨
  (containsKey g0.nodes e.srcLabel e.srcId = true ∧
   containsKey g0.nodes e.dstLabel e.dstId = true)

/-- Re-stamping `lastupdated` does not change an edge's key. -/
theorem sameEdgeKey_stamp (a e : Edge) (tag : Int) :
    sameEdgeKey a { e with lastupdated := tag } = sameEdgeKey a e := rfl

/-- Re-stamping `lastupdated` keeps an edge justified. -/
theorem stamp_preserves_justified (g0 : Graph) (tag : Int) (e : Edge)
    (h : edgeJustified g0 e) :
    edgeJustified g0 { e with lastupdated := tag } := by
  rcases h with ⟨e0, he0, hk⟩ | ⟨h1, h2⟩
  · exact Or.inl ⟨e0, he0, by rw [sameEdgeKey_stamp]; exact hk⟩
  · exact Or.inr ⟨h1, h2⟩

/-- The relationship `MERGE` only produces justified edges. -/
theorem upsertEdge_justified (g0 : Graph) (tag : Int) (es : List Edge)
    (e : Edge) (hes : ∀ x ∈ es, edgeJustified g0 x)
    (he : edgeJustified g0 e) :
    ∀ x ∈ upsertEdge tag es e, edgeJustified g0 x := by
  unfold upsertEdge
  split
  · intro x hx
    rw [List.mem_map] at hx
    obtain ⟨e0, he0, rfl⟩ := hx
    by_cases hs : sameEdgeKey e0 e = true
    · simp only [hs, if_true]
      exact stamp_preserves_justified g0 tag e0 (hes e0 he0)
    · simp only [hs, if_false]
      exact hes e0 he0
  · intro x hx
    rcases List.mem_append.mp hx with h | h
    · exact hes x h
    · rw [List.mem_singleton] at h
      subst h
      exact he

/-- A resolved endpoint is an existing node. -/
theorem resolveEndpoint_some (ns : List Node) (lbl : String) (item : Record)
    (fld : String) (v : PropValue)
    (h : resolveEndpoint ns lbl item fld = some v) :
    containsKey ns lbl v = true := by
  unfold resolveEndpoint at h
  split at h
  · split at h
    · exact absurd h (by simp)
    · split at h
      · injection h with h2
        rw [← h2]
        assumption
      · exact absurd h (by simp)
  · exact absurd h (by simp)

/-- A relationship row never touches the node set. -/
theorem processRelItem_nodes (p : RelPattern) (rt : String) (tag : Int)
    (g : Graph) (item : Record) :
    (processRelItem p rt tag g item).nodes = g.nodes := by
  unfold processRelItem
  cases resolveEndpoint g.nodes p.srcLabel item p.srcField <;>
    cases resolveEndpoint g.nodes p.dstLabel item p.dstField <;> rfl

/-- A relationship row preserves edge justification. -/
theorem processRelItem_justified (g0 : Graph) (p : RelPattern) (rt : String)
    (tag : Int) (g : Graph) (item : Record) (hn : g.nodes = g0.nodes)
    (hes : ∀ x ∈ g.edges, edgeJustified g0 x) :
    ∀ x ∈ (processRelItem p rt tag g item).edges, edgeJustified g0 x := by
  unfold processRelItem
  cases hA : resolveEndpoint g.nodes p.srcLabel item p.srcField with
  | none =>
    cases hB : resolveEndpoint g.nodes p.dstLabel item p.dstField <;>
      exact hes
  | some s =>
    cases hB : resolveEndpoint g.nodes p.dstLabel item p.dstField with
    | none => exact hes
    | some d =>
      simp only
      apply upsertEdge_justified g0 tag g.edges _ hes
      refine Or.inr ⟨?_, ?_⟩
      · rw [← hn]
        exact resolveEndpoint_some g.nodes p.srcLabel item p.srcField s hA
      · rw [← hn]
        exact resolveEndpoint_some g.nodes p.dstLabel item p.dstField d hB

/-- Folding relationship rows keeps the node set fixed. -/
theorem foldRelItems_nodes (p : RelPattern) (rt : String) (tag : Int) :
    ∀ (items : List Record) (g : Graph),
      (items.foldl (processRelItem p rt tag) g).nodes = g.nodes := by
  intro items
  induction items with
  | nil => intro g; rfl
  | cons i items ih =>
    intro g
    rw [List.foldl_cons, ih, processRelItem_nodes]

/-- Folding relationship rows preserves edge justification. -/
theorem foldRelItems_justified (g0 : Graph) (p : RelPattern) (rt : String)
    (tag : Int) :
    ∀ (items : List Record) (g : Graph), g.nodes = g0.nodes →
      (∀ x ∈ g.edges, edgeJustified g0 x) →
      ∀ x ∈ (items.foldl (processRelItem p rt tag) g).edges,
        edgeJustified g0 x := by
  intro items
  induction items with
  | nil => intro g _ hes; exact hes
  | cons i items ih =>
    intro g hn hes
    rw [List.foldl_cons]
    exact ih (processRelItem p rt tag g i)
      (by rw [processRelItem_nodes, hn])
      (processRelItem_justified g0 p rt tag g i hn hes)

/-- One relationship batch keeps the node set fixed. -/
theorem load_relationship_batch_nodes (rt : String) (tag : Int) (g : Graph)
    (b : List Record) :
    (load_relationship_batch rt tag g b).nodes = g.nodes := by
  unfold load_relationship_batch
  cases relPattern rt with
  | none => rfl
  | some p => exact foldRelItems_nodes p rt tag b g

/-- One relationship batch preserves edge justification. -/
theorem load_relationship_batch_justified (g0 : Graph) (rt : String)
    (tag : Int) (g : Graph) (b : List Record) (hn : g.nodes = g0.nodes)
    (hes : ∀ x ∈ g.edges, edgeJustified g0 x) :
    ∀ x ∈ (load_relationship_batch rt tag g b).edges, edgeJustified g0 x := by
  unfold load_relationship_batch
  cases relPattern rt with
  | none => exact hes
  | some p => exact foldRelItems_justified g0 p rt tag b g hn hes

/-- C7 (amended): a relationship pair whose endpoint does not resolve
produces no edge and does not fail its batch (the call still returns
`True`); relationship loading never creates or alters nodes; every edge
present afterwards either has the key of a pre-existing edge or joins two
nodes that already existed. However, the operation's result is only the
success Boolean — skipped pairs are not counted in it. -/
theorem unresolved_endpoint_pair_skipped (rel_type : String) (tag : Int)
    (g : Graph) (data : List Record) :
    (load_relationships rel_type tag g data).1 = true ∧
    (load_relationships rel_type tag g data).2.nodes = g.nodes ∧
    ∀ e ∈ (load_relationships rel_type tag g data).2.edges,
      (∃ e0 ∈ g.edges, sameEdgeKey e0 e = true) ∨
      (containsKey g.nodes e.srcLabel e.srcId = true ∧
       containsKey g.nodes e.dstLabel e.dstId = true) := by
  refine ⟨rfl, ?_, ?_⟩
  · show ((chunksB data).foldl (load_relationship_batch rel_type tag) g).nodes
      = g.nodes
    generalize chunksB data = bs
    induction bs generalizing g with
    | nil => rfl
    | cons b bs ih =>
      rw [List.foldl_cons, ih, load_relationship_batch_nodes]
  · show ∀ e ∈ ((chunksB data).foldl
      (load_relationship_batch rel_type tag) g).edges, edgeJustified g e
    generalize chunksB data = bs
    have main : ∀ (bs : List (List Record)) (g2 : Graph),
        g2.nodes = g.nodes → (∀ x ∈ g2.edges, edgeJustified g x) →
        ∀ e ∈ (bs.foldl (load_relationship_batch rel_type tag) g2).edges,
          edgeJustified g e := by
      intro bs
      induction bs with
      | nil => intro g2 _ hes; exact hes
      | cons b bs ih =>
        intro g2 hn hes
        rw [List.foldl_cons]
        exact ih (load_relationship_batch rel_type tag g2 b)
          (by rw [load_relationship_batch_nodes, hn])
          (load_relationship_batch_justified g rel_type tag g2 b hn hes)
    exact main bs g rfl (fun x hx => Or.inl ⟨x, hx, by
      simp [sameEdgeKey]⟩)

/-- An EC2 instance node for the C7 counterexample. -/
def c7Node1 : Node :=
  ⟨"EC2Instance", PropValue.str "i-1", fun _ => none⟩

/-- A security-group node for the C7 counterexample. -/
def c7Node2 : Node :=
  ⟨"SecurityGroup", PropValue.str "sg-1", fun _ => none⟩

/-- The C7 counterexample graph: one instance and one security group. -/
def c7Graph : Graph := ⟨[c7Node1, c7Node2], []⟩

/-- A membership pair whose both endpoints resolve. -/
def c7GoodPair : Record :=
  [("instance_id", PropValue.str "i-1"), ("group_id", PropValue.str "sg-1")]

/-- A membership pair whose target endpoint does not resolve. -/
def c7BadPair : Record :=
  [("instance_id", PropValue.str "i-1"), ("group_id", PropValue.str "sg-404")]

/-- How many pairs of a relationship batch have an unresolved endpoint
(the quantity the claim says is recorded in the operation's result). -/
def unresolvedCount (rel_type : String) (g : Graph) (data : List Record) :
    Nat :=
  match relPattern rel_type with
  | none => 0
  | some p =>
    (data.filter (fun item =>
      (resolveEndpoint g.nodes p.srcLabel item p.srcField).isNone ||
      (resolveEndpoint g.nodes p.dstLabel item p.dstField).isNone)).length

/-- C7 (counterexample): two relationship batches with zero and one
unresolved pair produce byte-for-byte identical operation results (same
Boolean, same graph), so the number of skipped pairs is not recorded in the
operation's result in any form. -/
theorem skipped_pairs_not_counted_counterexample :
    unresolvedCount "IS_MEMBER_OF" c7Graph [c7GoodPair] = 0 ∧
    unresolvedCount "IS_MEMBER_OF" c7Graph [c7GoodPair, c7BadPair] = 1 ∧
    load_relationships "IS_MEMBER_OF" 5 c7Graph [c7GoodPair] =
      load_relationships "IS_MEMBER_OF" 5 c7Graph [c7GoodPair, c7BadPair] := by
  refine ⟨rfl, rfl, ?_⟩
  show ((true : Bool),
      (chunksB [c7GoodPair]).foldl
        (load_relationship_batch "IS_MEMBER_OF" 5) c7Graph) =
    ((true : Bool),
      (chunksB [c7GoodPair, c7BadPair]).foldl
        (load_relationship_batch "IS_MEMBER_OF" 5) c7Graph)
  rw [chunksB_small [c7GoodPair] (by simp) (by simp),
      chunksB_small [c7GoodPair, c7BadPair] (by simp) (by simp)]
  rfl

/-! ### C6: records without an identity -/

/-- A usable identity is never the null value. -/
theorem getId_some_ne_null (r : Record) (v : PropValue)
    (h : getId r = some v) : v ≠ PropValue.null := by
  unfold getId at h
  split at h
  · split at h
    · exact absurd h (by simp)
    · injection h with h2
      rw [← h2]
      assumption
  · exact absurd h (by simp)

/-- A node upsert never introduces a null-keyed node. -/
theorem upsertNode_id_not_null (sch : CartographyNodeSchema) (tag : Int)
    (region account : PropValue) (ns : List Node) (item : Record)
    (h : ∀ n ∈ ns, n.id ≠ PropValue.null) :
    ∀ n ∈ upsertNode sch tag region account ns item,
      n.id ≠ PropValue.null := by
  unfold upsertNode
  cases hid : getId item with
  | none =>
    simp only [hid]
    exact h
  | some idv =>
    simp only [hid]
    split
    · intro n hn
      rw [List.mem_map] at hn
      obtain ⟨n0, hn0, rfl⟩ := hn
      by_cases hk : nodeKeyMatches sch.label idv n0 = true
      · simp only [hk, if_true]
        exact h n0 hn0
      · simp only [hk, if_false]
        exact h n0 hn0
    · intro n hn
      rcases List.mem_append.mp hn with h1 | h1
      · exact h n h1
      · rw [List.mem_singleton] at h1
        subst h1
        exact getId_some_ne_null item idv hid

/-- A node batch never introduces a null-keyed node. -/
theorem load_node_batch_id_not_null (sch : CartographyNodeSchema) (tag : Int)
    (region account : PropValue) :
    ∀ (batch : List Record) (ns : List Node),
      (∀ n ∈ ns, n.id ≠ PropValue.null) →
      ∀ n ∈ load_node_batch sch tag region account ns batch,
        n.id ≠ PropValue.null := by
  intro batch
  induction batch with
  | nil => intro ns h; exact h
  | cons r batch ih =>
    intro ns h
    exact ih _ (upsertNode_id_not_null sch tag region account ns r h)

/-- The batch loop never introduces a null-keyed node. -/
theorem loadNodesGo_id_not_null (sch : CartographyNodeSchema) (tag : Int)
    (region account : PropValue) :
    ∀ (bs : List (List Record)) (ns : List Node),
      (∀ n ∈ ns, n.id ≠ PropValue.null) →
      ∀ n ∈ (loadNodesGo sch tag region account ns bs).2,
        n.id ≠ PropValue.null := by
  intro bs
  induction bs with
  | nil => intro ns h; exact h
  | cons b bs ih =>
    intro ns h
    cases hb : goodBatch b
    · simp only [loadNodesGo, hb, Bool.false_eq_true, if_false]
      exact h
    · simp only [loadNodesGo, hb, if_true]
      exact ih _ (load_node_batch_id_not_null sch tag region account b ns h)

/-- The batch loop succeeds exactly when every batch has all identities. -/
theorem loadNodesGo_fst (sch : CartographyNodeSchema) (tag : Int)
    (region account : PropValue) :
    ∀ (bs : List (List Record)) (ns : List Node),
      (loadNodesGo sch tag region account ns bs).1 = bs.all goodBatch := by
  intro bs
  induction bs with
  | nil => intro ns; rfl
  | cons b bs ih =>
    intro ns
    cases hb : goodBatch b
    · simp [loadNodesGo, hb]
    · simp [loadNodesGo, hb, ih]

/-- C6 (amended): a record whose identity field is missing or null makes the
`MERGE` of its batch fail, so `load_nodes` reports failure (`False`) for the
call — there is no per-record rejected/skipped count — and no node keyed by
a null identity is ever created or merged into the graph. -/
theorem null_identity_record_fails_batch (node_type : String) (tag : Int)
    (region account : PropValue) (g : Graph) (data : List Record)
    (hg : ∀ n ∈ g.nodes, n.id ≠ PropValue.null)
    (hd : ∃ r ∈ data, getId r = none) :
    (load_nodes node_type tag region account g data).1 = false ∧
    ∀ n ∈ (load_nodes node_type tag region account g data).2.nodes,
      n.id ≠ PropValue.null := by
  unfold load_nodes
  cases hs : get_schema node_type with
  | none => exact ⟨rfl, hg⟩
  | some sch =>
    constructor
    · show (loadNodesGo sch tag region account g.nodes (chunksB data)).1 =
        false
      rw [loadNodesGo_fst]
      obtain ⟨r, hr, hid⟩ := hd
      have hrf : r ∈ (chunksB data).flatten := by
        rw [chunksB_flatten]; exact hr
      obtain ⟨b, hb, hrb⟩ := List.mem_flatten.mp hrf
      cases hall : (chunksB data).all goodBatch
      · rfl
      · exfalso
        have hbg : b.all goodRecord = true :=
          List.all_eq_true.mp hall b hb
        have hrg := List.all_eq_true.mp hbg r hrb
        simp [goodRecord, hid] at hrg
    · show ∀ n ∈ (loadNodesGo sch tag region account g.nodes
        (chunksB data)).2, n.id ≠ PropValue.null
      exact loadNodesGo_id_not_null sch tag region account (chunksB data)
        g.nodes hg

/-- A record with no identity field, for the C6 counterexample/witness. -/
def c6BadRec : Record := [("Name", PropValue.str "web-1")]

/-- A well-formed record sharing the C6 counterexample batch. -/
def c6GoodRec : Record :=
  [("id", PropValue.str "i-9"), ("InstanceId", PropValue.str "i-9")]

/-- Witness for C6 (amended): one id-less record on the empty graph. -/
theorem null_identity_record_fails_batch_witness :
    (∀ n ∈ (Graph.mk [] []).nodes, n.id ≠ PropValue.null) ∧
    (∃ r ∈ [c6BadRec], getId r = none) ∧
    (load_nodes "EC2Instance" 100 PropValue.null PropValue.null
      (Graph.mk [] []) [c6BadRec]).1 = false ∧
    ∀ n ∈ (load_nodes "EC2Instance" 100 PropValue.null PropValue.null
      (Graph.mk [] []) [c6BadRec]).2.nodes, n.id ≠ PropValue.null := by
  have h1 : ∀ n ∈ (Graph.mk [] []).nodes, n.id ≠ PropValue.null := by
    intro n hn
    exact absurd hn (List.not_mem_nil n)
  have h2 : ∃ r ∈ [c6BadRec], getId r = none :=
    ⟨c6BadRec, List.mem_cons_self _ _, rfl⟩
  obtain ⟨ha, hb⟩ := null_identity_record_fails_batch "EC2Instance" 100
    PropValue.null PropValue.null (Graph.mk [] []) [c6BadRec] h1 h2
  exact ⟨h1, h2, ha, hb⟩

/-- C6 (counterexample): the claim says a record with a missing identity is
recorded as a rejected/skipped count while the rest of the batch is loaded;
in the code the whole batch statement fails instead — `load_nodes` returns
`False`, the graph is unchanged, and in particular the well-formed record in
the same batch is also not loaded and no count of any kind is produced. -/
theorem no_rejected_count_batch_aborts_counterexample :
    load_nodes "EC2Instance" 100 PropValue.null PropValue.null
      (Graph.mk [] []) [c6BadRec, c6GoodRec] = (false, Graph.mk [] []) := by
  have hc : chunksB [c6BadRec, c6GoodRec] = [[c6BadRec, c6GoodRec]] :=
    chunksB_small _ (by simp) (by simp)
  show ((loadNodesGo ⟨"EC2Instance", ec2InstanceProps⟩ 100 PropValue.null
      PropValue.null [] (chunksB [c6BadRec, c6GoodRec])).1,
    Graph.mk (loadNodesGo ⟨"EC2Instance", ec2InstanceProps⟩ 100
      PropValue.null PropValue.null []
      (chunksB [c6BadRec, c6GoodRec])).2 []) = (false, Graph.mk [] [])
  rw [hc]
  rfl

/-! ### C3: the staleness sweeps -/

/-- A node stamped with the ingestion epoch tag 100, for C3. -/
def c3Node : Node :=
  ⟨"EC2Instance", PropValue.str "i-1",
   fun k =>
     if k = "lastupdated" then some (PropValue.int 100)
     else if k = "id" then some (PropValue.str "i-1") else none⟩

/-- The C3 graph: exactly the freshly re-ingested node. -/
def c3Graph : Graph := ⟨[c3Node], []⟩

/-- C3 (code bug, evaluated): a node which the ingestion epoch
(`self.update_tag = 100`) just stamped is deleted by
`cleanup_old_data_advanced` as soon as the sweep runs at any later wall-clock
second (`int(time.time()) = 101`), because the sweep compares against a
freshly computed timestamp instead of the ingestion epoch tag; the
non-advanced `cleanup_old_data`, which does compare against
`self.update_tag`, keeps the same node untouched. -/
theorem advanced_sweep_deletes_current_epoch_nodes :
    cleanup_old_data_advanced 101 1000 ["EC2Instance"] c3Graph =
      Graph.mk [] [] ∧
    cleanup_old_data 100 ["EC2Instance"] c3Graph = c3Graph := by
  exact ⟨rfl, rfl⟩

/-! ### C2: idempotence of node ingestion within one epoch -/

/-- `find?` through a conditional in-place update that cannot change the
search predicate's verdict. -/
theorem find?_map_keep (p q : Node → Bool) (F : Node → Node)
    (hkeep : ∀ n, q (F n) = q n) :
    ∀ ns : List Node,
      (ns.map (fun n => if p n then F n else n)).find? q =
        (ns.find? q).map (fun n => if p n then F n else n) := by
  intro ns
  induction ns with
  | nil => rfl
  | cons n ns ih =>
    rw [List.map_cons]
    have hqe : q (if p n then F n else n) = q n := by
      by_cases hp : p n = true
      · rw [if_pos hp, hkeep]
      · rw [if_neg hp]
    cases hqn : q n
    · rw [List.find?_cons_of_neg _ (by rw [hqe, hqn]; simp),
        List.find?_cons_of_neg _ (by rw [hqn]; simp), ih]
    · rw [List.find?_cons_of_pos _ (by rw [hqe, hqn]),
        List.find?_cons_of_pos _ hqn]
      rfl

/-- `any` through a conditional in-place update that cannot change the
predicate's verdict. -/
theorem any_map_keep (p q : Node → Bool) (F : Node → Node)
    (hkeep : ∀ n, q (F n) = q n) :
    ∀ ns : List Node,
      (ns.map (fun n => if p n then F n else n)).any q = ns.any q := by
  intro ns
  induction ns with
  | nil => rfl
  | cons n ns ih =>
    rw [List.map_cons, List.any_cons, List.any_cons, ih]
    have hqe : q (if p n then F n else n) = q n := by
      by_cases hp : p n = true
      · rw [if_pos hp, hkeep]
      · rw [if_neg hp]
    rw [hqe]

/-- `find?` over an append, stepwise. -/
theorem find?_append_eq (p : Node → Bool) :
    ∀ (l1 l2 : List Node),
      (l1 ++ l2).find? p =
        match l1.find? p with
        | some a => some a
        | none => l2.find? p := by
  intro l1 l2
  induction l1 with
  | nil => rfl
  | cons n l1 ih =>
    rw [List.cons_append]
    cases hn : p n
    · rw [List.find?_cons_of_neg _ (by simp [hn]),
        List.find?_cons_of_neg _ (by simp [hn]), ih]
    · rw [List.find?_cons_of_pos _ hn, List.find?_cons_of_pos _ hn]

/-- A fields-only update never changes a node's key verdict. -/
theorem nodeKeyMatches_fields_update (lbl : String) (idv : PropValue)
    (n : Node) (f2 : String → Option PropValue) :
    nodeKeyMatches lbl idv { n with fields := f2 } =
      nodeKeyMatches lbl idv n := rfl

/-- Two different keys cannot both match one node. -/
theorem nodeKeyMatches_unique (lbl : String) (idv : PropValue)
    (lbl2 : String) (idv2 : PropValue) (n : Node)
    (h1 : nodeKeyMatches lbl idv n = true)
    (h2 : nodeKeyMatches lbl2 idv2 n = true) : lbl = lbl2 ∧ idv = idv2 := by
  unfold nodeKeyMatches at h1 h2
  rw [Bool.and_eq_true] at h1 h2
  constructor
  · rw [← beq_iff_eq.mp h1.1, ← beq_iff_eq.mp h2.1]
  · rw [← beq_iff_eq.mp h1.2, ← beq_iff_eq.mp h2.2]

/-- The freshly created node of an upsert matches its key. -/
theorem nodeKeyMatches_new (sch : CartographyNodeSchema) (idv : PropValue)
    (f : String → Option PropValue) :
    nodeKeyMatches sch.label idv ⟨sch.label, idv, f⟩ = true := by
  simp [nodeKeyMatches]

/-- What one node upsert does to any key's lookup: the item's own key gets
the item applied over its previous (or freshly created) property map; every
other key is untouched; an id-less item does nothing. -/
theorem upsert_lookup (sch : CartographyNodeSchema) (tag : Int)
    (region account : PropValue) (ns : List Node) (item : Record)
    (lbl : String) (idv : PropValue) :
    lookupNodeFields (upsertNode sch tag region account ns item) lbl idv =
      match getId item with
      | none => lookupNodeFields ns lbl idv
      | some idv2 =>
        if lbl = sch.label ∧ idv = idv2 then
          some (applyItem sch tag region account
            ((lookupNodeFields ns lbl idv).getD (baseFields idv2)) item)
        else lookupNodeFields ns lbl idv := by
  unfold upsertNode
  cases hid : getId item with
  | none => simp only [hid]
  | some idv2 =>
    simp only [hid]
    by_cases hkey : lbl = sch.label ∧ idv = idv2
    · rw [if_pos hkey]
      obtain ⟨h1, h2⟩ := hkey
      subst h1
      subst h2
      by_cases hc : containsKey ns sch.label idv = true
      · rw [if_pos hc]
        unfold lookupNodeFields
        rw [find?_map_keep _ _ _
          (fun n => nodeKeyMatches_fields_update sch.label idv n _)]
        unfold containsKey at hc
        obtain ⟨n0, hn0mem, hn0⟩ := List.any_eq_true.mp hc
        have hfind : (ns.find? (nodeKeyMatches sch.label idv)).isSome := by
          rw [List.find?_isSome]
          exact ⟨n0, hn0mem, hn0⟩
        obtain ⟨n1, hn1⟩ := Option.isSome_iff_exists.mp hfind
        rw [hn1]
        have hq1 : nodeKeyMatches sch.label idv n1 = true :=
          List.find?_some hn1
        simp [hq1]
      · rw [if_neg hc]
        unfold lookupNodeFields
        have hnone : ns.find? (nodeKeyMatches sch.label idv) = none := by
          rw [List.find?_eq_none]
          intro x hx hxk
          exact hc (List.any_eq_true.mpr ⟨x, hx, hxk⟩)
        rw [find?_append_eq, hnone]
        show Option.map (fun n => n.fields)
          (List.find? (nodeKeyMatches sch.label idv)
            [⟨sch.label, idv, applyItem sch tag region account
              (baseFields idv) item⟩]) = _
        rw [List.find?_cons_of_pos _ (nodeKeyMatches_new sch idv _)]
        rfl
    · rw [if_neg hkey]
      by_cases hc : containsKey ns sch.label idv2 = true
      · rw [if_pos hc]
        unfold lookupNodeFields
        rw [find?_map_keep _ _ _
          (fun n => nodeKeyMatches_fields_update lbl idv n _)]
        cases hf : ns.find? (nodeKeyMatches lbl idv) with
        | none => rfl
        | some n1 =>
          have hq1 : nodeKeyMatches lbl idv n1 = true := List.find?_some hf
          by_cases hp : nodeKeyMatches sch.label idv2 n1 = true
          · exact absurd (nodeKeyMatches_unique lbl idv sch.label idv2 n1
              hq1 hp) hkey
          · simp [hp]
      · rw [if_neg hc]
        unfold lookupNodeFields
        rw [find?_append_eq]
        cases hf : ns.find? (nodeKeyMatches lbl idv) with
        | some n1 => rfl
        | none =>
          have hnew : nodeKeyMatches lbl idv
              (⟨sch.label, idv2, applyItem sch tag region account
                (baseFields idv2) item⟩ : Node) = false := by
            cases hq : nodeKeyMatches lbl idv
              (⟨sch.label, idv2, applyItem sch tag region account
                (baseFields idv2) item⟩ : Node)
            · rfl
            · exact absurd (nodeKeyMatches_unique lbl idv sch.label idv2 _
                hq (nodeKeyMatches_new sch idv2 _)) hkey
          show Option.map (fun n => n.fields)
            (List.find? (nodeKeyMatches lbl idv)
              [⟨sch.label, idv2, applyItem sch tag region account
                (baseFields idv2) item⟩]) = Option.map (fun n => n.fields)
                  (none : Option Node)
          rw [List.find?_cons_of_neg _ (by simp [hnew])]
          rfl

/-- The effect of one upsert row on one fixed key's property map, as read off
`upsert_lookup`. -/
def stepK (sch : CartographyNodeSchema) (tag : Int)
    (region account : PropValue) (lbl : String) (idv : PropValue)
    (o : Option (String → Option PropValue)) (item : Record) :
    Option (String → Option PropValue) :=
  match getId item with
  | none => o
  | some idv2 =>
    if lbl = sch.label ∧ idv = idv2 then
      some (applyItem sch tag region account
        (o.getD (baseFields idv2)) item)
    else o

/-- Folding upserts and then looking one key up equals folding the per-key
effects. -/
theorem fold_lookup (sch : CartographyNodeSchema) (tag : Int)
    (region account : PropValue) (lbl : String) (idv : PropValue) :
    ∀ (items : List Record) (ns : List Node),
      lookupNodeFields
        (items.foldl (upsertNode sch tag region account) ns) lbl idv =
      items.foldl (stepK sch tag region account lbl idv)
        (lookupNodeFields ns lbl idv) := by
  intro items
  induction items with
  | nil => intro ns; rfl
  | cons i items ih =>
    intro ns
    rw [List.foldl_cons, List.foldl_cons, ih, upsert_lookup]
    rfl

/-- Does an upsert row target the key `(lbl, idv)` under schema `sch`? -/
def matchB (sch : CartographyNodeSchema) (lbl : String) (idv : PropValue)
    (item : Record) : Bool :=
  match getId item with
  | some idv2 => lbl == sch.label && idv == idv2
  | none => false

/-- A non-targeting row leaves the key's map alone. -/
theorem stepK_not_matching (sch : CartographyNodeSchema) (tag : Int)
    (region account : PropValue) (lbl : String) (idv : PropValue)
    (o : Option (String → Option PropValue)) (item : Record)
    (hm : matchB sch lbl idv item = false) :
    stepK sch tag region account lbl idv o item = o := by
  cases hid : getId item with
  | none => simp only [stepK, hid]
  | some idv2 =>
    simp only [matchB, hid] at hm
    simp only [stepK, hid]
    rw [if_neg]
    intro hkey
    rw [hkey.1, hkey.2] at hm
    simp at hm

/-- A targeting row rewrites the key's map with itself applied. -/
theorem stepK_matching (sch : CartographyNodeSchema) (tag : Int)
    (region account : PropValue) (lbl : String) (idv : PropValue)
    (o : Option (String → Option PropValue)) (item : Record)
    (hm : matchB sch lbl idv item = true) :
    stepK sch tag region account lbl idv o item =
      some (applyItem sch tag region account (o.getD (baseFields idv))
        item) := by
  cases hid : getId item with
  | none =>
    simp only [matchB, hid] at hm
    exact absurd hm (by simp)
  | some idv2 =>
    simp only [matchB, hid] at hm
    rw [Bool.and_eq_true] at hm
    have h1 : lbl = sch.label := beq_iff_eq.mp hm.1
    have h2 : idv = idv2 := beq_iff_eq.mp hm.2
    simp only [stepK, hid]
    rw [if_pos ⟨h1, h2⟩, ← h2]

/-- Closed form of the per-key fold: the last targeting rows win, applied in
order over the key's previous (or freshly created) map. -/
theorem stepK_char (sch : CartographyNodeSchema) (tag : Int)
    (region account : PropValue) (lbl : String) (idv : PropValue) :
    ∀ (items : List Record) (o : Option (String → Option PropValue)),
      items.foldl (stepK sch tag region account lbl idv) o =
        if items.filter (matchB sch lbl idv) = [] then o
        else some ((items.filter (matchB sch lbl idv)).foldl
          (fun f item => applyItem sch tag region account f item)
          (o.getD (baseFields idv))) := by
  intro items
  induction items with
  | nil => intro o; simp
  | cons i items ih =>
    intro o
    rw [List.foldl_cons, List.filter_cons]
    by_cases hm : matchB sch lbl idv i = true
    · rw [if_pos hm, stepK_matching _ _ _ _ _ _ o i hm, ih]
      rw [if_neg (show ¬(i :: items.filter (matchB sch lbl idv) = [])
        by simp), List.foldl_cons]
      by_cases hf : items.filter (matchB sch lbl idv) = []
      · rw [if_pos hf, hf, List.foldl_nil]
      · rw [if_neg hf, Option.getD_some]
    · have hmf : matchB sch lbl idv i = false := Bool.eq_false_iff.mpr hm
      rw [if_neg hm, stepK_not_matching _ _ _ _ _ _ o i hmf]
      exact ih o

/-- The last row of an ingestion pass that binds a given property key, with
its (null-stripped) value. -/
def lastBound : List Record → String → Option (Option PropValue)
  | [], _ => none
  | i :: l, k =>
    match lastBound l k with
    | some x => some x
    | none => itemVal i k

/-- Closed form of applying a non-empty row list over a property map,
per key: the SET clauses fix the special keys, and otherwise the last row
binding the key wins, falling back to the previous map. -/
theorem applyList_char (sch : CartographyNodeSchema) (tag : Int)
    (region account : PropValue) :
    ∀ (M : List Record) (f : String → Option PropValue) (k : String),
      M ≠ [] →
      (M.foldl (fun f item => applyItem sch tag region account f item) f) k =
        if "account_id" ∈ sch.props ∧ k = "account_id" then setNull account
        else if "region" ∈ sch.props ∧ k = "region" then setNull region
        else if k = "lastupdated" then some (PropValue.int tag)
        else
          match lastBound M k with
          | some x => x
          | none => f k := by
  intro M
  induction M with
  | nil => intro f k h; exact absurd rfl h
  | cons i M ih =>
    intro f k _
    rw [List.foldl_cons]
    by_cases hM0 : M = []
    · subst hM0
      rw [List.foldl_nil]
      rfl
    · rw [ih (applyItem sch tag region account f i) k hM0]
      by_cases hacc : "account_id" ∈ sch.props ∧ k = "account_id"
      · rw [if_pos hacc, if_pos hacc]
      · rw [if_neg hacc, if_neg hacc]
        by_cases hreg : "region" ∈ sch.props ∧ k = "region"
        · rw [if_pos hreg, if_pos hreg]
        · rw [if_neg hreg, if_neg hreg]
          by_cases hlu : k = "lastupdated"
          · rw [if_pos hlu, if_pos hlu]
          · rw [if_neg hlu, if_neg hlu]
            cases hw : lastBound M k with
            | some x =>
              have hw2 : lastBound (i :: M) k = some x := by
                show (match lastBound M k with
                  | some x => some x
                  | none => itemVal i k) = some x
                rw [hw]
              rw [hw2]
            | none =>
              have hw2 : lastBound (i :: M) k = itemVal i k := by
                show (match lastBound M k with
                  | some x => some x
                  | none => itemVal i k) = itemVal i k
                rw [hw]
              rw [hw2]
              show applyItem sch tag region account f i k = _
              unfold applyItem
              rw [if_neg hacc, if_neg hreg, if_neg hlu]

/-- Applying the same non-empty row list twice is the same as applying it
once. -/
theorem applyList_idem (sch : CartographyNodeSchema) (tag : Int)
    (region account : PropValue) (M : List Record)
    (f : String → Option PropValue) (hM : M ≠ []) :
    M.foldl (fun f item => applyItem sch tag region account f item)
      (M.foldl (fun f item => applyItem sch tag region account f item) f) =
    M.foldl (fun f item => applyItem sch tag region account f item) f := by
  funext k
  rw [applyList_char sch tag region account M _ k hM]
  by_cases hacc : "account_id" ∈ sch.props ∧ k = "account_id"
  · rw [if_pos hacc,
      applyList_char sch tag region account M f k hM, if_pos hacc]
  · rw [if_neg hacc]
    by_cases hreg : "region" ∈ sch.props ∧ k = "region"
    · rw [if_pos hreg,
        applyList_char sch tag region account M f k hM, if_neg hacc,
        if_pos hreg]
    · rw [if_neg hreg]
      by_cases hlu : k = "lastupdated"
      · rw [if_pos hlu,
          applyList_char sch tag region account M f k hM, if_neg hacc,
          if_neg hreg, if_pos hlu]
      · rw [if_neg hlu]
        cases hw : lastBound M k with
        | some x =>
          rw [applyList_char sch tag region account M f k hM, if_neg hacc,
            if_neg hreg, if_neg hlu, hw]
        | none => rfl

/-- The per-key fold is idempotent. -/
theorem stepK_fold_idem (sch : CartographyNodeSchema) (tag : Int)
    (region account : PropValue) (lbl : String) (idv : PropValue)
    (items : List Record) (o : Option (String → Option PropValue)) :
    items.foldl (stepK sch tag region account lbl idv)
      (items.foldl (stepK sch tag region account lbl idv) o) =
    items.foldl (stepK sch tag region account lbl idv) o := by
  have hchar := stepK_char sch tag region account lbl idv items
  by_cases hf : items.filter (matchB sch lbl idv) = []
  · rw [hchar o, if_pos hf, hchar o, if_pos hf]
  · rw [hchar o, if_neg hf, hchar _, if_neg hf, Option.getD_some,
      applyList_idem sch tag region account _ _ hf]

/-- An upsert never deletes a key. -/
theorem containsKey_upsert_mono (sch : CartographyNodeSchema) (tag : Int)
    (region account : PropValue) (ns : List Node) (item : Record)
    (lbl : String) (idv : PropValue)
    (h : containsKey ns lbl idv = true) :
    containsKey (upsertNode sch tag region account ns item) lbl idv =
      true := by
  unfold upsertNode
  cases hid : getId item with
  | none => simp only [hid]; exact h
  | some idv2 =>
    simp only [hid]
    split
    · unfold containsKey
      rw [any_map_keep _ _ _
        (fun n => nodeKeyMatches_fields_update lbl idv n _)]
      exact h
    · unfold containsKey
      rw [List.any_append]
      unfold containsKey at h
      rw [h]
      rfl

/-- After an upsert, the item's own key is present. -/
theorem containsKey_upsert_self (sch : CartographyNodeSchema) (tag : Int)
    (region account : PropValue) (ns : List Node) (item : Record)
    (idv : PropValue) (hid : getId item = some idv) :
    containsKey (upsertNode sch tag region account ns item) sch.label idv =
      true := by
  unfold upsertNode
  simp only [hid]
  split
  · rename_i hc
    unfold containsKey
    rw [any_map_keep _ _ _
      (fun n => nodeKeyMatches_fields_update sch.label idv n _)]
    exact hc
  · unfold containsKey
    rw [List.any_append]
    have : (([⟨sch.label, idv, applyItem sch tag region account
        (baseFields idv) item⟩] : List Node).any
          (nodeKeyMatches sch.label idv)) = true := by
      rw [List.any_cons]
      rw [nodeKeyMatches_new]
      rfl
    rw [this, Bool.or_true]

/-- An upsert whose key is already present keeps every per-label count. -/
theorem countLabel_upsert_present (sch : CartographyNodeSchema) (tag : Int)
    (region account : PropValue) (ns : List Node) (item : Record)
    (lbl : String)
    (h : ∀ idv, getId item = some idv →
      containsKey ns sch.label idv = true) :
    countLabel (upsertNode sch tag region account ns item) lbl =
      countLabel ns lbl := by
  unfold upsertNode
  cases hid : getId item with
  | none => simp only [hid]
  | some idv =>
    simp only [hid]
    split
    · unfold countLabel
      have key : ∀ ms : List Node,
          (ms.map (fun n =>
            if nodeKeyMatches sch.label idv n = true then
              { n with fields :=
                applyItem sch tag region account n.fields item }
            else n)).filter (fun n => n.label == lbl) =
          (ms.filter (fun n => n.label == lbl)).map (fun n =>
            if nodeKeyMatches sch.label idv n = true then
              { n with fields :=
                applyItem sch tag region account n.fields item }
            else n) := by
        intro ms
        induction ms with
        | nil => rfl
        | cons n ms ih =>
          rw [List.map_cons, List.filter_cons, List.filter_cons]
          have hsame : ((if nodeKeyMatches sch.label idv n = true then
              { n with fields :=
                applyItem sch tag region account n.fields item }
            else n).label == lbl) = (n.label == lbl) := by
            by_cases hp : nodeKeyMatches sch.label idv n = true
            · rw [if_pos hp]
            · rw [if_neg hp]
          rw [hsame]
          by_cases hl : (n.label == lbl) = true
          · rw [if_pos hl, if_pos hl, List.map_cons, ih]
          · rw [if_neg hl, if_neg hl, ih]
      rw [key ns, List.length_map]
    · rename_i hc
      exact absurd (h idv hid) hc

/-- A key present before a pass is present after it. -/
theorem containsKey_foldl_mono (sch : CartographyNodeSchema) (tag : Int)
    (region account : PropValue) (lbl : String) (idv : PropValue) :
    ∀ (items : List Record) (ns : List Node),
      containsKey ns lbl idv = true →
      containsKey (items.foldl (upsertNode sch tag region account) ns)
        lbl idv = true := by
  intro items
  induction items with
  | nil => intro ns h; exact h
  | cons i items ih =>
    intro ns h
    rw [List.foldl_cons]
    exact ih _ (containsKey_upsert_mono sch tag region account ns i lbl idv h)

/-- After a pass, the key of every identified row of the pass is present. -/
theorem containsKey_foldl_mem (sch : CartographyNodeSchema) (tag : Int)
    (region account : PropValue) :
    ∀ (items : List Record) (ns : List Node) (item : Record)
      (idv : PropValue), item ∈ items → getId item = some idv →
      containsKey (items.foldl (upsertNode sch tag region account) ns)
        sch.label idv = true := by
  intro items
  induction items with
  | nil =>
    intro ns item idv hmem _
    exact absurd hmem (List.not_mem_nil item)
  | cons i items ih =>
    intro ns item idv hmem hid
    rw [List.foldl_cons]
    rcases List.mem_cons.mp hmem with rfl | hmem2
    · exact containsKey_foldl_mono sch tag region account sch.label idv
        items _ (containsKey_upsert_self sch tag region account ns item
          idv hid)
    · exact ih _ item idv hmem2 hid

/-- A pass whose every identified row's key is already present keeps every
per-label count. -/
theorem countLabel_foldl_present (sch : CartographyNodeSchema) (tag : Int)
    (region account : PropValue) (lbl : String) :
    ∀ (items : List Record) (ns : List Node),
      (∀ item ∈ items, ∀ idv, getId item = some idv →
        containsKey ns sch.label idv = true) →
      countLabel (items.foldl (upsertNode sch tag region account) ns) lbl =
        countLabel ns lbl := by
  intro items
  induction items with
  | nil => intro ns _; rfl
  | cons i items ih =>
    intro ns h
    rw [List.foldl_cons]
    rw [ih (upsertNode sch tag region account ns i)
      (fun item hmem idv hid =>
        containsKey_upsert_mono sch tag region account ns i sch.label idv
          (h item (List.mem_cons_of_mem i hmem) idv hid))]
    exact countLabel_upsert_present sch tag region account ns i lbl
      (fun idv hid => h i (List.mem_cons_self i items) idv hid)

/-- The graph the batch loop leaves behind: the committed batches are exactly
the longest all-identified front of the batch list, and they fold over the
nodes row by row. -/
theorem loadNodesGo_snd (sch : CartographyNodeSchema) (tag : Int)
    (region account : PropValue) :
    ∀ (bs : List (List Record)) (ns : List Node),
      (loadNodesGo sch tag region account ns bs).2 =
        ((bs.takeWhile goodBatch).flatten).foldl
          (upsertNode sch tag region account) ns := by
  intro bs
  induction bs with
  | nil => intro ns; rfl
  | cons b bs ih =>
    intro ns
    cases hb : goodBatch b
    · simp only [loadNodesGo, hb, Bool.false_eq_true, if_false,
        List.takeWhile_cons, List.flatten_nil, List.foldl_nil]
    · simp only [loadNodesGo, hb, if_true, List.takeWhile_cons,
        List.flatten_cons, List.foldl_append]
      exact ih (load_node_batch sch tag region account ns b)

/-- C2: node ingestion is idempotent within one epoch — re-ingesting the
same record list with the same `update_tag` (and the same region/account
parameters) leaves the same node count for every label and the same
property map at every `(label, id)` key as ingesting it once, because the
upsert merges by the identity field and overwrites all other fields. -/
theorem ingest_twice_same_epoch_idempotent (node_type : String) (tag : Int)
    (region account : PropValue) (g : Graph) (data : List Record) :
    (∀ lbl,
      countLabel (load_nodes node_type tag region account
        (load_nodes node_type tag region account g data).2
          data).2.nodes lbl =
      countLabel (load_nodes node_type tag region account g
        data).2.nodes lbl) ∧
    (∀ lbl idv,
      lookupNodeFields (load_nodes node_type tag region account
        (load_nodes node_type tag region account g data).2
          data).2.nodes lbl idv =
      lookupNodeFields (load_nodes node_type tag region account g
        data).2.nodes lbl idv) := by
  unfold load_nodes
  cases hs : get_schema node_type with
  | none => exact ⟨fun lbl => rfl, fun lbl idv => rfl⟩
  | some sch =>
    simp only [hs, loadNodesGo_snd]
    constructor
    · intro lbl
      exact countLabel_foldl_present sch tag region account lbl _ _
        (fun item hmem idv hid =>
          containsKey_foldl_mem sch tag region account _ g.nodes item idv
            hmem hid)
    · intro lbl idv
      rw [fold_lookup, fold_lookup]
      exact stepK_fold_idem sch tag region account lbl idv _ _

end CloudInfra
